import Mathlib

/-!
# Verification of `rp_parts_pull.py`

A shallow embedding of the core of `rp_parts_pull.py`:

* the keyed dataset differ (`load_csv_as_map`, `csv_diff`, lines 48-100), and
* the generation poller (the `while` loop of `main`, lines 160-196).

Modelling conventions:

* A CSV row (a Python `csv.DictReader` row dict) is an association list from
  column name to string value; `row.get(c)` returning `None` (absent column
  or short row) is an association-list lookup returning `none`.
* Python `str.strip()` is `pyStrip`, dropping leading/trailing whitespace
  characters from the character list (ASCII whitespace).
* A Python `dict` keyed by strings, populated by `rows[k] = row`, is an
  association list extended at the end (Python dicts preserve insertion
  order); lookups return the first (unique) binding.
* Python string comparison, as used by `sorted(...)`, is code-point
  lexicographic order, embedded as `strLe`.
* Python `set` values (the key sets and the default compare-field set) have
  unspecified iteration order; where the source iterates over such a set to
  build a list (the changed-row loop, the default compare fields), the
  embedding iterates in a canonical order (sorted, resp. first-occurrence
  order of the header) as a representative of the unspecified order.
* Wall-clock time in the poller advances only at the explicit `time.sleep`
  calls; poll calls themselves are instantaneous.  File paths, HTTP and
  zip-extraction are out of scope (per the spec they are external
  collaborators) and enter only as abstract data.
-/

/-! ## Strings: strip and ordering -/

/-- Python `str.strip()`: drop leading and trailing whitespace characters. -/
def pyStrip (s : String) : String :=
  String.mk (((s.data.dropWhile Char.isWhitespace).reverse.dropWhile
    Char.isWhitespace).reverse)

/-- Code-point lexicographic comparison of character lists (Python `<=` on
strings), kernel-computable. -/
def charListLe : List Char → List Char → Bool
  | [], _ => true
  | _ :: _, [] => false
  | a :: as, b :: bs =>
    if a.toNat < b.toNat then true
    else if b.toNat < a.toNat then false
    else charListLe as bs

/-- Python `<=` on strings. -/
def strLe (a b : String) : Bool := charListLe a.data b.data

/-- The ordering used to embed `sorted(...)` on string keys. -/
def strOrd (a b : String) : Prop := strLe a b = true

instance : DecidableRel strOrd := fun a b => by unfold strOrd; infer_instance

/-! ## The keyed dataset differ -/

/-- A row of a tabular file: column name ↦ string value.
Missing columns (`row.get(c) is None` in Python) are simply absent. -/
abbrev Row : Type := List (String × String)

/-- A loaded tabular file: header (`rdr.fieldnames`) plus data rows. -/
structure CSVFile where
  fieldnames : List String
  rows : List Row
deriving DecidableEq

/-- The keyed snapshot a file is loaded into: insertion-ordered association
list from (stripped) key to the winning row. -/
abbrev RowMap : Type := List (String × Row)

/-- `(row.get(key_col) or "").strip()` — the key a row is filed under. -/
def keyOf (kc : String) (r : Row) : String :=
  pyStrip ((r.lookup kc).getD "")

/-- One iteration of the row-loading loop of `load_csv_as_map`
(`if k and k not in rows: rows[k] = row`, lines 55-57): insert the row
under its stripped key unless the key is empty or already present. -/
def insertRow (kc : String) (m : RowMap) (r : Row) : RowMap :=
  let k := keyOf kc r
  if k ≠ "" ∧ m.lookup k = none then m ++ [(k, r)] else m

/-- The row-loading loop of `load_csv_as_map` (lines 53-57). -/
def load_rows (rows : List Row) (kc : String) : RowMap :=
  rows.foldl (insertRow kc) []

/-- `load_csv_as_map` (lines 48-58): check the key column is in the header
(else `SystemExit`, embedded as `Except.error`), then build the keyed map.
First occurrence wins; rows with empty stripped keys are dropped. -/
def load_csv_as_map (f : CSVFile) (kc : String) :
    Except String (RowMap × List String) :=
  if kc ∈ f.fieldnames then Except.ok (load_rows f.rows kc, f.fieldnames)
  else Except.error "KeyColumnMissing"

/-- The key list of a loaded snapshot, in insertion order. -/
def keysList (m : RowMap) : List String := m.map Prod.fst

/-- The key set of a loaded snapshot (`set(old_map)` / `set(new_map)`). -/
def keysFin (m : RowMap) : Finset String := (keysList m).toFinset

/-- `load_rows` applied to a file (the map component of `load_csv_as_map`). -/
def loadMap (f : CSVFile) (kc : String) : RowMap :=
  load_rows f.rows kc

/-- `set(new_map) - set(old_map)` as a list (no duplicates, since map keys
are distinct by construction). -/
def newKeyList (old_map new_map : RowMap) : List String :=
  (keysList new_map).filter (fun k => decide (k ∉ keysList old_map))

/-- `set(new_map) & set(old_map)` as a list. -/
def sharedKeyList (old_map new_map : RowMap) : List String :=
  (keysList new_map).filter (fun k => decide (k ∈ keysList old_map))

/-- Python `sorted(...)` on string keys. -/
def sortKeys (l : List String) : List String := List.insertionSort strOrd l

/-- The compare-field resolution of `csv_diff` (lines 65-68): an explicit
override list is filtered to the columns present in both headers (order and
multiplicity of the override preserved, as in the Python list
comprehension); the default is the unordered set
`(set(old_cols) & set(new_cols)) - {key_col}`, canonically represented in
first-occurrence order of `old_cols`, deduplicated. -/
def resolveCmpFields (fo : Option (List String)) (old_cols new_cols : List String)
    (kc : String) : List String :=
  match fo with
  | some fs => fs.filter (fun c => decide (c ∈ old_cols ∧ c ∈ new_cols))
  | none => (old_cols.filter (fun c => decide (c ∈ new_cols ∧ c ≠ kc))).dedup

/-- `(old_map[k].get(c) or "").strip()` (lines 74-75): the stripped value of
field `c` in the row stored under `k`; a missing field reads as `""`. -/
def rowVal (m : RowMap) (k c : String) : String :=
  pyStrip ((((m.lookup k).getD []).lookup c).getD "")

/-- The per-key field comparison of `csv_diff` (lines 72-77): for each
compare field, record `(field, old, new)` when the stripped values differ. -/
def rowDiffs (old_map new_map : RowMap) (cmp_fields : List String) (k : String) :
    List (String × String × String) :=
  cmp_fields.filterMap (fun c =>
    if rowVal old_map k c ≠ rowVal new_map k c
    then some (c, rowVal old_map k c, rowVal new_map k c) else none)

/-- The changed-row accumulation of `csv_diff` (lines 70-79): for each shared
key (the Python `set` iterated in canonical sorted order), keep the key with
its field diffs when at least one compare field differs (`diff_any`). -/
def changedRows (old_map new_map : RowMap) (cmp_fields : List String) :
    List (String × List (String × String × String)) :=
  (sortKeys (sharedKeyList old_map new_map)).filterMap (fun k =>
    if rowDiffs old_map new_map cmp_fields k = [] then none
    else some (k, rowDiffs old_map new_map cmp_fields k))

/-- The result of `csv_diff`: the sorted new/removed key lists (as written to
the output files), the changed rows (key plus per-field old/new values for
the differing fields only), and the resolved compare-field list. -/
structure DiffResult where
  new_keys : List String
  rem_keys : List String
  changed_rows : List (String × List (String × String × String))
  cmp_fields : List String
deriving DecidableEq

/-- `csv_diff` (lines 60-79, 86-89): load both snapshots (propagating the
key-column check of `load_csv_as_map`), compute new/removed/shared key sets,
resolve the compare fields, and collect the changed rows. -/
def csv_diff (old_csv new_csv : CSVFile) (kc : String)
    (fo : Option (List String)) : Except String DiffResult :=
  match load_csv_as_map old_csv kc with
  | Except.error e => Except.error e
  | Except.ok (old_map, old_cols) =>
    match load_csv_as_map new_csv kc with
    | Except.error e => Except.error e
    | Except.ok (new_map, new_cols) =>
      let cmp := resolveCmpFields fo old_cols new_cols kc
      Except.ok
        { new_keys := sortKeys (newKeyList old_map new_map)
          rem_keys := sortKeys (newKeyList new_map old_map)
          changed_rows := changedRows old_map new_map cmp
          cmp_fields := cmp }

/-- The set of keys reported as changed. -/
def changedKeySet (r : DiffResult) : Finset String :=
  (r.changed_rows.map Prod.fst).toFinset

example :
    load_rows [[("k", " K1 "), ("v", "a")], [("k", "K1"), ("v", "b")]] "k"
      = [("K1", [("k", " K1 "), ("v", "a")])] := by decide

example : load_rows [[("k", "   ")]] "k" = [] := by decide

example :
    csv_diff ⟨["k", "v"], [[("k", "K1"), ("v", "a")], [("k", "K2"), ("v", "x")]]⟩
      ⟨["k", "v"], [[("k", "K1"), ("v", "b")], [("k", "K3"), ("v", "y")]]⟩
      "k" none
      = Except.ok
          { new_keys := ["K3"], rem_keys := ["K2"]
            changed_rows := [("K1", [("v", "a", "b")])]
            cmp_fields := ["v"] } := rfl

/-! ## The generation poller (`main`, lines 150-196)

The loop state and the configuration mirror the local variables of `main`:
`gen_date`, `tried_yesterday`, `attempts`, and the implicit wall clock
(`start_time` / `time.time()`), abstracted as seconds elapsed since
`start_time`.  `poll n d` is the outcome of `try_download` on attempt `n`
for date `d` (`true` = ready); `hour e` is `datetime.now().hour` when the
elapsed time is `e`; `yesterday` is `yyyymmdd(datetime.now() -
timedelta(days=1))`.  `timeout_s` and `poll_interval_s` are
`args.timeout_mins * 60` and `args.poll_mins * 60`.  Sleeps advance the
clock by `max 60 poll_interval_s` seconds (line 185); polls are
instantaneous.  `rollbacks` and `sleeps` count, for the analysis, how often
the yesterday-rollback branch (lines 178-181) and `time.sleep` (line 187)
were executed. -/

structure PollConfig where
  create : Bool
  explicit_date : Option String
  poll_interval_s : Nat
  timeout_s : Nat
  today : String
  yesterday : String
  poll : Nat → String → Bool
  hour : Nat → Nat

structure PollState where
  attempts : Nat
  gen_date : String
  tried_yesterday : Bool
  elapsed : Nat
  sleeps : Nat
  rollbacks : Nat
deriving DecidableEq

inductive PollResult where
  | success (s : PollState)
  | notReady (s : PollState)
  | timeout (s : PollState)
deriving DecidableEq

/-- The loop state at the point the `while` loop of `main` is left. -/
def PollResult.state : PollResult → PollState
  | PollResult.success s => s
  | PollResult.notReady s => s
  | PollResult.timeout s => s

/-- The `while True` loop of `main` (lines 166-187): poll, then on failure
either give up immediately (no `--create`), roll the target date back to
yesterday once (no explicit date, before 06:00), time out (`time_left() <=
0`), or sleep `max(60, poll_mins*60)` seconds and retry. -/
def pollLoop (cfg : PollConfig) (s : PollState) : PollResult :=
  if cfg.poll (s.attempts + 1) s.gen_date then
    PollResult.success { s with attempts := s.attempts + 1 }
  else if cfg.create = false then
    PollResult.notReady { s with attempts := s.attempts + 1 }
  else if h3 : cfg.explicit_date = none ∧ s.tried_yesterday = false ∧
      cfg.hour s.elapsed < 6 then
    pollLoop cfg { s with attempts := s.attempts + 1, gen_date := cfg.yesterday,
                          tried_yesterday := true, rollbacks := s.rollbacks + 1 }
  else if h4 : cfg.timeout_s ≤ s.elapsed then
    PollResult.timeout { s with attempts := s.attempts + 1 }
  else
    pollLoop cfg { s with attempts := s.attempts + 1,
                          elapsed := s.elapsed + max 60 cfg.poll_interval_s,
                          sleeps := s.sleeps + 1 }
termination_by
  (cond s.tried_yesterday 0 1) * (cfg.timeout_s + 61) + (cfg.timeout_s + 1 - s.elapsed)
decreasing_by
  · obtain ⟨-, h, -⟩ := h3
    simp only [h, Bool.cond_false, Bool.cond_true]
    omega
  · have hm : 60 ≤ max 60 cfg.poll_interval_s := Nat.le_max_left _ _
    cases s.tried_yesterday <;>
      simp only [Bool.cond_false, Bool.cond_true] <;> omega

/-- Entry into the loop (lines 160-162): the target date is the explicit
`--date` if given, else today's date; all counters start at zero. -/
def pollRun (cfg : PollConfig) : PollResult :=
  pollLoop cfg { attempts := 0, gen_date := cfg.explicit_date.getD cfg.today,
                 tried_yesterday := false, elapsed := 0, sleeps := 0,
                 rollbacks := 0 }

/-! ## Run-level control flow of `main` (lines 126-230)

What matters for the error-propagation analysis is which terminal outcome a
run reaches and whether a `run_*.json` metadata record is written before the
process exits.  The three metadata writes in `main` are at line 156 (create
HTTP error, before `sys.exit`), line 195 (download not ready / timeout,
before `sys.exit`) and line 229 (the final write on the success path).  A
`SystemExit` raised by `load_csv_as_map` (line 52) propagates out of
`csv_diff` (called at line 222) and past the final write at line 229.
`create_status` is the HTTP status of the CREATE call (line 152);
`diff_requested` abstracts "`--diff-old` given, the old file exists, and a
`.csv` member was extracted" (lines 206-219). -/

inductive RunOutcome where
  | createHttpError
  | downloadNotReady
  | keyColumnMissing
  | done
deriving DecidableEq

structure MainResult where
  outcome : RunOutcome
  metadata_written : Bool
deriving DecidableEq

structure MainArgs where
  create_status : Nat
  pcfg : PollConfig
  diff_requested : Bool
  old_file : CSVFile
  new_file : CSVFile
  key_col : String
  diff_fields : Option (List String)

/-- The terminal outcome of one run of `main`, together with whether a
metadata record was persisted before exiting. -/
def mainModel (a : MainArgs) : MainResult :=
  if a.pcfg.create = true ∧ a.create_status ≠ 200 then
    { outcome := RunOutcome.createHttpError, metadata_written := true }
  else
    match pollRun a.pcfg with
    | PollResult.success _ =>
      if a.diff_requested then
        match csv_diff a.old_file a.new_file a.key_col a.diff_fields with
        | Except.error _ =>
          { outcome := RunOutcome.keyColumnMissing, metadata_written := false }
        | Except.ok _ =>
          { outcome := RunOutcome.done, metadata_written := true }
      else { outcome := RunOutcome.done, metadata_written := true }
    | PollResult.notReady _ =>
      { outcome := RunOutcome.downloadNotReady, metadata_written := true }
    | PollResult.timeout _ =>
      { outcome := RunOutcome.downloadNotReady, metadata_written := true }

/-! ## Order properties of the key ordering -/

theorem charListLe_total : ∀ a b : List Char,
    charListLe a b = true ∨ charListLe b a = true
  | [], _ => Or.inl rfl
  | _ :: _, [] => Or.inr rfl
  | a :: as, b :: bs => by
    unfold charListLe
    by_cases h1 : a.toNat < b.toNat
    · simp [h1]
    · by_cases h2 : b.toNat < a.toNat
      · simp [h1, h2]
      · simpa [h1, h2] using charListLe_total as bs

theorem charListLe_trans : ∀ a b c : List Char,
    charListLe a b = true → charListLe b c = true → charListLe a c = true
  | [], _, _, _, _ => rfl
  | _ :: _, [], _, h1, _ => by simp [charListLe] at h1
  | _ :: _, _ :: _, [], _, h2 => by simp [charListLe] at h2
  | a :: as, b :: bs, c :: cs, h1, h2 => by
    unfold charListLe at h1 h2 ⊢
    rcases Nat.lt_trichotomy a.toNat b.toNat with hab | hab | hab
    · rcases Nat.lt_trichotomy b.toNat c.toNat with hbc | hbc | hbc
      · rw [if_pos (by omega)]
      · rw [if_pos (by omega)]
      · rw [if_neg (by omega), if_pos hbc] at h2
        exact absurd h2 (by simp)
    · rcases Nat.lt_trichotomy b.toNat c.toNat with hbc | hbc | hbc
      · rw [if_pos (by omega)]
      · rw [if_neg (by omega), if_neg (by omega)] at h1
        rw [if_neg (by omega), if_neg (by omega)] at h2
        rw [if_neg (by omega), if_neg (by omega)]
        exact charListLe_trans as bs cs h1 h2
      · rw [if_neg (by omega), if_pos hbc] at h2
        exact absurd h2 (by simp)
    · rw [if_neg (by omega), if_pos hab] at h1
      exact absurd h1 (by simp)

theorem charListLe_antisymm : ∀ a b : List Char,
    charListLe a b = true → charListLe b a = true → a = b
  | [], [], _, _ => rfl
  | [], _ :: _, _, h2 => by simp [charListLe] at h2
  | _ :: _, [], h1, _ => by simp [charListLe] at h1
  | a :: as, b :: bs, h1, h2 => by
    unfold charListLe at h1 h2
    rcases Nat.lt_trichotomy a.toNat b.toNat with hab | hab | hab
    · rw [if_neg (by omega), if_pos hab] at h2
      exact absurd h2 (by simp)
    · rw [if_neg (by omega), if_neg (by omega)] at h1
      rw [if_neg (by omega), if_neg (by omega)] at h2
      have ha : a = b := Char.ext (UInt32.ext hab)
      rw [ha, charListLe_antisymm as bs h1 h2]
    · rw [if_neg (by omega), if_pos hab] at h1
      exact absurd h1 (by simp)

instance : IsTotal String strOrd :=
  ⟨fun a b => charListLe_total a.data b.data⟩

instance : IsTrans String strOrd :=
  ⟨fun a b c => charListLe_trans a.data b.data c.data⟩

instance : IsAntisymm String strOrd :=
  ⟨fun a b h1 h2 => String.ext (charListLe_antisymm a.data b.data h1 h2)⟩

theorem sortKeys_sorted (l : List String) : (sortKeys l).Sorted strOrd :=
  List.sorted_insertionSort strOrd l

theorem sortKeys_perm (l : List String) : (sortKeys l).Perm l :=
  List.perm_insertionSort strOrd l

theorem sortKeys_eq_of_perm {l₁ l₂ : List String} (h : l₁.Perm l₂) :
    sortKeys l₁ = sortKeys l₂ :=
  List.eq_of_perm_of_sorted (((sortKeys_perm l₁).trans h).trans (sortKeys_perm l₂).symm)
    (sortKeys_sorted l₁) (sortKeys_sorted l₂)

theorem mem_sortKeys {l : List String} {k : String} : k ∈ sortKeys l ↔ k ∈ l :=
  (sortKeys_perm l).mem_iff

/-! ## Properties of the loading loop -/

theorem lookup_insertRow (kc : String) (m : RowMap) (r : Row) (k : String) :
    (insertRow kc m r).lookup k =
      if keyOf kc r = k ∧ k ≠ "" ∧ m.lookup k = none
      then some r else m.lookup k := by
  simp only [insertRow]
  by_cases hins : keyOf kc r ≠ "" ∧ m.lookup (keyOf kc r) = none
  · rw [if_pos hins, List.lookup_append]
    by_cases hkr : keyOf kc r = k
    · subst hkr
      rw [if_pos ⟨rfl, hins.1, hins.2⟩, hins.2]
      simp [List.lookup]
    · have h0 : List.lookup k [(keyOf kc r, r)] = none := by
        simp only [List.lookup]
        rw [show (k == keyOf kc r) = false from
          beq_eq_false_iff_ne.mpr (fun h => hkr h.symm)]
      rw [h0, Option.or_none, if_neg (fun h => hkr h.1)]
  · rw [if_neg hins]
    push_neg at hins
    rw [if_neg]
    rintro ⟨h1, h2, h3⟩
    rw [h1] at hins
    exact hins h2 h3

theorem lookup_load_aux (kc : String) (rows : List Row) (m : RowMap) (k : String) :
    (rows.foldl (insertRow kc) m).lookup k =
      (m.lookup k).or (if k = "" then none
        else rows.find? (fun r => keyOf kc r == k)) := by
  induction rows generalizing m with
  | nil => cases h : m.lookup k <;> simp [h, List.find?]
  | cons r rs ih =>
    rw [List.foldl_cons, ih, lookup_insertRow]
    by_cases hk : k = ""
    · subst hk
      rw [if_neg (by rintro ⟨-, h, -⟩; exact h rfl)]
      simp
    · rw [if_neg hk, if_neg hk]
      by_cases hpr : keyOf kc r = k
      · rw [List.find?_cons_of_pos _ (by simpa using hpr)]
        by_cases hm : m.lookup k = none
        · rw [if_pos ⟨hpr, hk, hm⟩, hm, Option.none_or]
          simp
        · rw [if_neg (fun h => hm h.2.2)]
          cases h : m.lookup k with
          | none => exact absurd h hm
          | some v => simp
      · rw [List.find?_cons_of_neg _ (by simpa using hpr),
          if_neg (fun h => hpr h.1)]

/-- For a nonempty key `k`, what `load_rows` stores under `k` is the first
row of the file whose stripped key is `k` (first occurrence wins). -/
theorem lookup_load_rows (rows : List Row) (kc k : String) (hk : k ≠ "") :
    (load_rows rows kc).lookup k = rows.find? (fun r => keyOf kc r == k) := by
  unfold load_rows
  rw [lookup_load_aux, if_neg hk]
  simp [List.lookup]

/-- Rows whose stripped key is empty are dropped: nothing is stored
under `""`. -/
theorem lookup_load_rows_empty (rows : List Row) (kc : String) :
    (load_rows rows kc).lookup "" = none := by
  unfold load_rows
  rw [lookup_load_aux, if_pos rfl]
  simp [List.lookup]

theorem lookup_eq_none_iff (m : RowMap) (k : String) :
    m.lookup k = none ↔ k ∉ keysList m := by
  induction m with
  | nil => simp [keysList, List.lookup]
  | cons p ps ih =>
    obtain ⟨k1, r1⟩ := p
    simp only [keysList, List.map_cons, List.mem_cons, List.lookup]
    by_cases h : k = k1
    · subst h
      simp
    · rw [show (k == k1) = false from beq_eq_false_iff_ne.mpr h]
      simp only [keysList] at ih
      simp [h, ih]

theorem mem_keysList_load (rows : List Row) (kc k : String) :
    k ∈ keysList (load_rows rows kc) ↔ k ≠ "" ∧ ∃ r ∈ rows, keyOf kc r = k := by
  constructor
  · intro hmem
    have hk : k ≠ "" := by
      rintro rfl
      exact (lookup_eq_none_iff _ _).mp (lookup_load_rows_empty rows kc) hmem
    refine ⟨hk, ?_⟩
    have h1 : (load_rows rows kc).lookup k ≠ none := fun h =>
      (lookup_eq_none_iff _ _).mp h hmem
    rw [lookup_load_rows rows kc k hk, ← Option.isSome_iff_ne_none,
      List.find?_isSome] at h1
    obtain ⟨r, hr, hp⟩ := h1
    exact ⟨r, hr, by simpa using hp⟩
  · rintro ⟨hk, r, hr, hkey⟩
    by_contra hmem
    have h1 : (load_rows rows kc).lookup k = none := (lookup_eq_none_iff _ _).mpr hmem
    rw [lookup_load_rows rows kc k hk, List.find?_eq_none] at h1
    exact h1 r hr (by simpa using hkey)

theorem nodup_keysList_aux (kc : String) (rows : List Row) (m : RowMap)
    (hm : (keysList m).Nodup) : (keysList (rows.foldl (insertRow kc) m)).Nodup := by
  induction rows generalizing m with
  | nil => exact hm
  | cons r rs ih =>
    rw [List.foldl_cons]
    apply ih
    simp only [insertRow]
    by_cases hins : keyOf kc r ≠ "" ∧ List.lookup (keyOf kc r) m = none
    · rw [if_pos hins]
      simp only [keysList, List.map_append, List.map_cons, List.map_nil]
      rw [List.nodup_append]
      refine ⟨hm, by simp, ?_⟩
      intro a ha hb
      simp only [List.mem_singleton] at hb
      subst hb
      exact ((lookup_eq_none_iff m _).mp hins.2) ha
    · rw [if_neg hins]
      exact hm

/-- The keys of a loaded snapshot are distinct: it faithfully represents
the Python dict. -/
theorem nodup_keysList_load (rows : List Row) (kc : String) :
    (keysList (load_rows rows kc)).Nodup :=
  nodup_keysList_aux kc rows [] (by simp [keysList])

/-! ## Permutation invariance of loading -/

theorem find?_eq_head?_filter {α : Type} (p : α → Bool) : ∀ l : List α,
    l.find? p = (l.filter p).head?
  | [] => rfl
  | a :: as => by
    cases h : p a with
    | true => simp [List.find?_cons, List.filter_cons, h]
    | false =>
      simpa [List.find?_cons, List.filter_cons, h] using
        find?_eq_head?_filter p as

/-- `find?` is stable under permutation as soon as all elements satisfying
the predicate are equal. -/
theorem find?_perm_unique {α : Type} {p : α → Bool} {l₁ l₂ : List α}
    (hperm : l₁.Perm l₂)
    (huniq : ∀ x ∈ l₁, ∀ y ∈ l₁, p x = true → p y = true → x = y) :
    l₁.find? p = l₂.find? p := by
  rw [find?_eq_head?_filter, find?_eq_head?_filter]
  cases hf1 : l₁.filter p with
  | nil =>
    have hp : (List.nil : List α).Perm (l₂.filter p) := hf1 ▸ hperm.filter p
    rw [← hp.nil_eq]
  | cons x xs =>
    have hp : (x :: xs).Perm (l₂.filter p) := hf1 ▸ hperm.filter p
    cases hf2 : l₂.filter p with
    | nil =>
      rw [hf2] at hp
      exact absurd hp.symm.nil_eq (by simp)
    | cons y ys =>
      have hx3 : x ∈ l₁.filter p := by rw [hf1]; exact List.mem_cons_self _ _
      have hy2 : y ∈ l₂.filter p := by rw [hf2]; exact List.mem_cons_self _ _
      have hy3 : y ∈ l₁.filter p := (hperm.filter p).mem_iff.mpr hy2
      rw [List.head?_cons, List.head?_cons,
        huniq x (List.mem_of_mem_filter hx3) y (List.mem_of_mem_filter hy3)
          (List.of_mem_filter hx3) (List.of_mem_filter hy3)]

/-- No two rows of `rows` carry the same nonempty stripped key (and hence
no row is silently dropped as a duplicate). -/
def uniqueKeys (rows : List Row) (kc : String) : Prop :=
  ((rows.filter (fun r => decide (keyOf kc r ≠ ""))).map (keyOf kc)).Nodup

instance (rows : List Row) (kc : String) : Decidable (uniqueKeys rows kc) := by
  unfold uniqueKeys
  infer_instance

/-- With unique keys, the loaded snapshot is insensitive to the order of
the rows: every lookup agrees. -/
theorem lookup_load_rows_perm {rows rows' : List Row} (kc : String)
    (hperm : rows.Perm rows') (hu : uniqueKeys rows kc) (k : String) :
    (load_rows rows kc).lookup k = (load_rows rows' kc).lookup k := by
  by_cases hk : k = ""
  · subst hk
    rw [lookup_load_rows_empty, lookup_load_rows_empty]
  · rw [lookup_load_rows rows kc k hk, lookup_load_rows rows' kc k hk]
    apply find?_perm_unique hperm
    intro x hx y hy hpx hpy
    have hxk : keyOf kc x = k := by simpa using hpx
    have hyk : keyOf kc y = k := by simpa using hpy
    have hxf : x ∈ rows.filter (fun r => decide (keyOf kc r ≠ "")) :=
      List.mem_filter.mpr ⟨hx, by simp [hxk, hk]⟩
    have hyf : y ∈ rows.filter (fun r => decide (keyOf kc r ≠ "")) :=
      List.mem_filter.mpr ⟨hy, by simp [hyk, hk]⟩
    exact List.inj_on_of_nodup_map hu hxf hyf (by rw [hxk, hyk])

theorem mem_keysList_load_perm {rows rows' : List Row} (kc : String)
    (hperm : rows.Perm rows') (k : String) :
    k ∈ keysList (load_rows rows kc) ↔ k ∈ keysList (load_rows rows' kc) := by
  rw [mem_keysList_load, mem_keysList_load]
  constructor <;> rintro ⟨hk, r, hr, hkey⟩
  · exact ⟨hk, r, hperm.mem_iff.mp hr, hkey⟩
  · exact ⟨hk, r, hperm.mem_iff.mpr hr, hkey⟩

theorem keysList_load_perm {rows rows' : List Row} (kc : String)
    (hperm : rows.Perm rows') :
    (keysList (load_rows rows kc)).Perm (keysList (load_rows rows' kc)) := by
  rw [List.perm_ext_iff_of_nodup (nodup_keysList_load _ _) (nodup_keysList_load _ _)]
  exact fun a => mem_keysList_load_perm kc hperm a

/-! ## Equations for `csv_diff` -/

theorem csv_diff_eq_ok (f g : CSVFile) (kc : String) (fo : Option (List String))
    (hf : kc ∈ f.fieldnames) (hg : kc ∈ g.fieldnames) :
    csv_diff f g kc fo = Except.ok
      { new_keys := sortKeys (newKeyList (loadMap f kc) (loadMap g kc))
        rem_keys := sortKeys (newKeyList (loadMap g kc) (loadMap f kc))
        changed_rows := changedRows (loadMap f kc) (loadMap g kc)
          (resolveCmpFields fo f.fieldnames g.fieldnames kc)
        cmp_fields := resolveCmpFields fo f.fieldnames g.fieldnames kc } := by
  unfold csv_diff load_csv_as_map loadMap
  rw [if_pos hf, if_pos hg]

theorem csv_diff_eq_error (f g : CSVFile) (kc : String) (fo : Option (List String))
    (h : kc ∉ f.fieldnames ∨ kc ∉ g.fieldnames) :
    csv_diff f g kc fo = Except.error "KeyColumnMissing" := by
  unfold csv_diff load_csv_as_map
  rcases h with h | h
  · rw [if_neg h]
  · by_cases hf : kc ∈ f.fieldnames
    · rw [if_pos hf, if_neg h]
    · rw [if_neg hf]

/-! ## Diff-level permutation lemmas -/

theorem newKeyList_perm {ro ro' rn rn' : List Row} (kc : String)
    (hop : ro.Perm ro') (hnp : rn.Perm rn') :
    (newKeyList (load_rows ro kc) (load_rows rn kc)).Perm
      (newKeyList (load_rows ro' kc) (load_rows rn' kc)) := by
  unfold newKeyList
  have hcongr :
      (keysList (load_rows rn' kc)).filter
          (fun k => decide (k ∉ keysList (load_rows ro kc)))
        = (keysList (load_rows rn' kc)).filter
          (fun k => decide (k ∉ keysList (load_rows ro' kc))) := by
    apply List.filter_congr
    intro x _
    simp only [decide_eq_decide]
    exact not_congr (mem_keysList_load_perm kc hop x)
  rw [← hcongr]
  exact (keysList_load_perm kc hnp).filter _

theorem sharedKeyList_perm {ro ro' rn rn' : List Row} (kc : String)
    (hop : ro.Perm ro') (hnp : rn.Perm rn') :
    (sharedKeyList (load_rows ro kc) (load_rows rn kc)).Perm
      (sharedKeyList (load_rows ro' kc) (load_rows rn' kc)) := by
  unfold sharedKeyList
  have hcongr :
      (keysList (load_rows rn' kc)).filter
          (fun k => decide (k ∈ keysList (load_rows ro kc)))
        = (keysList (load_rows rn' kc)).filter
          (fun k => decide (k ∈ keysList (load_rows ro' kc))) := by
    apply List.filter_congr
    intro x _
    simp only [decide_eq_decide]
    exact mem_keysList_load_perm kc hop x
  rw [← hcongr]
  exact (keysList_load_perm kc hnp).filter _

theorem rowVal_load_perm {rows rows' : List Row} (kc : String)
    (hperm : rows.Perm rows') (hu : uniqueKeys rows kc) (k c : String) :
    rowVal (load_rows rows kc) k c = rowVal (load_rows rows' kc) k c := by
  unfold rowVal
  rw [lookup_load_rows_perm kc hperm hu k]

theorem rowDiffs_load_perm {ro ro' rn rn' : List Row} (kc : String)
    (hop : ro.Perm ro') (hnp : rn.Perm rn')
    (huo : uniqueKeys ro kc) (hun : uniqueKeys rn kc)
    (cmp : List String) (k : String) :
    rowDiffs (load_rows ro kc) (load_rows rn kc) cmp k
      = rowDiffs (load_rows ro' kc) (load_rows rn' kc) cmp k := by
  unfold rowDiffs
  apply List.filterMap_congr
  intro c _
  rw [rowVal_load_perm kc hop huo k c, rowVal_load_perm kc hnp hun k c]

theorem changedRows_load_perm {ro ro' rn rn' : List Row} (kc : String)
    (hop : ro.Perm ro') (hnp : rn.Perm rn')
    (huo : uniqueKeys ro kc) (hun : uniqueKeys rn kc) (cmp : List String) :
    changedRows (load_rows ro kc) (load_rows rn kc) cmp
      = changedRows (load_rows ro' kc) (load_rows rn' kc) cmp := by
  unfold changedRows
  rw [sortKeys_eq_of_perm (sharedKeyList_perm kc hop hnp)]
  apply List.filterMap_congr
  intro k _
  rw [rowDiffs_load_perm kc hop hnp huo hun cmp k]

/-! ## Self-diff lemmas -/

theorem rowDiffs_self (m : RowMap) (cmp : List String) (k : String) :
    rowDiffs m m cmp k = [] := by
  unfold rowDiffs
  rw [List.filterMap_eq_nil_iff]
  intro c _
  simp

theorem changedRows_self (m : RowMap) (cmp : List String) :
    changedRows m m cmp = [] := by
  unfold changedRows
  rw [List.filterMap_eq_nil_iff]
  intro k _
  simp [rowDiffs_self]

theorem newKeyList_self (m : RowMap) : newKeyList m m = [] := by
  unfold newKeyList
  rw [List.filter_eq_nil_iff]
  intro a ha
  simp [ha]

/-! ## Claim C7 -/

/-- C7: for every input file and every compare-field selection (default or
explicit override), diffing the file against itself yields an empty new key
list, an empty removed key list, and an empty changed set. -/
theorem csv_diff_self_empty (A : CSVFile) (kc : String) (fo : Option (List String))
    (r : DiffResult) (h : csv_diff A A kc fo = Except.ok r) :
    r.new_keys = [] ∧ r.rem_keys = [] ∧ r.changed_rows = [] := by
  by_cases hk : kc ∈ A.fieldnames
  · rw [csv_diff_eq_ok A A kc fo hk hk] at h
    simp only [Except.ok.injEq] at h
    subst h
    refine ⟨?_, ?_, ?_⟩
    · show sortKeys (newKeyList (loadMap A kc) (loadMap A kc)) = []
      rw [newKeyList_self]
      rfl
    · show sortKeys (newKeyList (loadMap A kc) (loadMap A kc)) = []
      rw [newKeyList_self]
      rfl
    · exact changedRows_self _ _
  · rw [csv_diff_eq_error A A kc fo (Or.inl hk)] at h
    exact absurd h (by simp)

/-- Witness for C7 at a concrete file, with the default field selection. -/
theorem csv_diff_self_empty_witness :
    (DiffResult.mk [] [] [] ["v"]).new_keys = []
    ∧ (DiffResult.mk [] [] [] ["v"]).rem_keys = []
    ∧ (DiffResult.mk [] [] [] ["v"]).changed_rows = [] :=
  csv_diff_self_empty ⟨["k", "v"], [[("k", "K1"), ("v", "a")]]⟩ "k" none
    (DiffResult.mk [] [] [] ["v"]) rfl

/-! ## Claim C4 -/

/-- C4 (amended): provided no two data rows within a file share the same
nonempty stripped key, re-ordering the data rows of either input (headers
fixed) yields an identical `DiffResult`. -/
theorem csv_diff_row_order_invariant (f g f2 g2 : CSVFile) (kc : String)
    (fo : Option (List String))
    (hff : f2.fieldnames = f.fieldnames) (hfp : f.rows.Perm f2.rows)
    (hgf : g2.fieldnames = g.fieldnames) (hgp : g.rows.Perm g2.rows)
    (huf : uniqueKeys f.rows kc) (hug : uniqueKeys g.rows kc) :
    csv_diff f2 g2 kc fo = csv_diff f g kc fo := by
  by_cases hf : kc ∈ f.fieldnames
  · by_cases hg : kc ∈ g.fieldnames
    · rw [csv_diff_eq_ok f g kc fo hf hg,
        csv_diff_eq_ok f2 g2 kc fo (by rw [hff]; exact hf) (by rw [hgf]; exact hg)]
      unfold loadMap
      rw [hff, hgf,
        ← sortKeys_eq_of_perm (newKeyList_perm kc hfp hgp),
        ← sortKeys_eq_of_perm (newKeyList_perm kc hgp hfp),
        ← changedRows_load_perm kc hfp hgp huf hug
          (resolveCmpFields fo f.fieldnames g.fieldnames kc)]
    · rw [csv_diff_eq_error f g kc fo (Or.inr hg),
        csv_diff_eq_error f2 g2 kc fo (Or.inr (by rw [hgf]; exact hg))]
  · rw [csv_diff_eq_error f g kc fo (Or.inl hf),
      csv_diff_eq_error f2 g2 kc fo (Or.inl (by rw [hff]; exact hf))]

/-- Witness for C4 at concrete files: swapping two distinct-key rows leaves
the diff unchanged. -/
theorem csv_diff_row_order_invariant_witness :
    csv_diff ⟨["k", "v"], [[("k", "K2"), ("v", "b")], [("k", "K1"), ("v", "a")]]⟩
        ⟨["k", "v"], [[("k", "K1"), ("v", "c")]]⟩ "k" none
      = csv_diff ⟨["k", "v"], [[("k", "K1"), ("v", "a")], [("k", "K2"), ("v", "b")]]⟩
        ⟨["k", "v"], [[("k", "K1"), ("v", "c")]]⟩ "k" none :=
  csv_diff_row_order_invariant
    ⟨["k", "v"], [[("k", "K1"), ("v", "a")], [("k", "K2"), ("v", "b")]]⟩
    ⟨["k", "v"], [[("k", "K1"), ("v", "c")]]⟩
    ⟨["k", "v"], [[("k", "K2"), ("v", "b")], [("k", "K1"), ("v", "a")]]⟩
    ⟨["k", "v"], [[("k", "K1"), ("v", "c")]]⟩
    "k" none rfl (List.Perm.swap _ _ _) rfl (List.Perm.refl _)
    (by decide) (by decide)

/-- C4 counterexample: with duplicate keys within the new file (first
occurrence wins), swapping the two duplicate rows changes which row is
loaded and hence changes the `DiffResult`. -/
theorem csv_diff_row_order_counterexample :
    ([[("k", "K1"), ("v", "a")], [("k", "K1"), ("v", "b")]] : List Row).Perm
        [[("k", "K1"), ("v", "b")], [("k", "K1"), ("v", "a")]]
    ∧ csv_diff ⟨["k", "v"], [[("k", "K1"), ("v", "a")]]⟩
        ⟨["k", "v"], [[("k", "K1"), ("v", "a")], [("k", "K1"), ("v", "b")]]⟩ "k" none
      ≠ csv_diff ⟨["k", "v"], [[("k", "K1"), ("v", "a")]]⟩
        ⟨["k", "v"], [[("k", "K1"), ("v", "b")], [("k", "K1"), ("v", "a")]]⟩ "k" none := by
  constructor
  · exact List.Perm.swap _ _ _
  · intro h
    have h1 : csv_diff ⟨["k", "v"], [[("k", "K1"), ("v", "a")]]⟩
        ⟨["k", "v"], [[("k", "K1"), ("v", "a")], [("k", "K1"), ("v", "b")]]⟩ "k" none
        = Except.ok (DiffResult.mk [] [] [] ["v"]) := rfl
    have h2 : csv_diff ⟨["k", "v"], [[("k", "K1"), ("v", "a")]]⟩
        ⟨["k", "v"], [[("k", "K1"), ("v", "b")], [("k", "K1"), ("v", "a")]]⟩ "k" none
        = Except.ok (DiffResult.mk [] [] [("K1", [("v", "a", "b")])] ["v"]) := rfl
    rw [h1, h2] at h
    simp at h

/-! ## Field-level comparison -/

theorem mem_rowDiffs_iff (old_map new_map : RowMap) (cmp : List String)
    (k c a b : String) :
    (c, a, b) ∈ rowDiffs old_map new_map cmp k ↔
      c ∈ cmp ∧ a = rowVal old_map k c ∧ b = rowVal new_map k c ∧ a ≠ b := by
  unfold rowDiffs
  rw [List.mem_filterMap]
  constructor
  · rintro ⟨x, hx, hsome⟩
    by_cases hab : rowVal old_map k x ≠ rowVal new_map k x
    · rw [if_pos hab] at hsome
      simp only [Option.some.injEq, Prod.mk.injEq] at hsome
      obtain ⟨rfl, rfl, rfl⟩ := hsome
      exact ⟨hx, rfl, rfl, hab⟩
    · rw [if_neg hab] at hsome
      exact absurd hsome (by simp)
  · rintro ⟨hc, rfl, rfl, hab⟩
    exact ⟨c, hc, by rw [if_pos hab]⟩

/-! ## Claim C8 -/

/-- C8: for every shared key and compared field, the field is reported as
changed exactly when the stripped old and new values differ; in particular
`"foo"` vs `"foo "` is not a change while `"foo"` vs `"bar"` is. -/
theorem field_changed_iff_stripped_values_differ (old_map new_map : RowMap)
    (cmp : List String) (k c a b : String) :
    ((c, a, b) ∈ rowDiffs old_map new_map cmp k ↔
      c ∈ cmp ∧ a = rowVal old_map k c ∧ b = rowVal new_map k c ∧ a ≠ b)
    ∧ rowDiffs [("K1", [("v", "foo")])] [("K1", [("v", "foo ")])] ["v"] "K1" = []
    ∧ rowDiffs [("K1", [("v", "foo")])] [("K1", [("v", "bar")])] ["v"] "K1"
        = [("v", "foo", "bar")] :=
  ⟨mem_rowDiffs_iff old_map new_map cmp k c a b, by decide, by decide⟩

/-! ## Claim C9 -/

/-- C9: a compared field that is entirely absent from the stored row reads
as the empty string, and when the other side's raw value also strips to the
empty string (absent, empty, or whitespace-only) the field is never
reported as a change. -/
theorem missing_field_reads_empty (old_map new_map : RowMap)
    (cmp : List String) (k c : String)
    (hmiss : ((old_map.lookup k).getD []).lookup c = none)
    (hnew : pyStrip ((((new_map.lookup k).getD []).lookup c).getD "") = "") :
    rowVal old_map k c = "" ∧
      ∀ a b, (c, a, b) ∉ rowDiffs old_map new_map cmp k := by
  have h1 : rowVal old_map k c = "" := by
    unfold rowVal
    rw [hmiss]
    decide
  refine ⟨h1, ?_⟩
  intro a b hmem
  rw [mem_rowDiffs_iff] at hmem
  obtain ⟨-, ha, hb, hab⟩ := hmem
  have h2 : rowVal new_map k c = "" := hnew
  rw [ha, hb, h1, h2] at hab
  exact hab rfl

/-- Witness for C9: the old row has no `"v"` column at all, the new row has
a whitespace-only `"v"`; the field is not reported. -/
theorem missing_field_reads_empty_witness :
    rowVal [("K1", [("x", "1")])] "K1" "v" = "" ∧
      ∀ a b, ("v", a, b) ∉ rowDiffs [("K1", [("x", "1")])]
        [("K1", [("v", "  "), ("x", "1")])] ["v"] "K1" :=
  missing_field_reads_empty [("K1", [("x", "1")])]
    [("K1", [("v", "  "), ("x", "1")])] ["v"] "K1" "v" (by decide) (by decide)

/-! ## Claim C10 -/

/-- C10: rows are keyed by the stripped key value: the stored binding for a
nonempty key `k` is the first row whose stripped key equals `k`, nothing is
stored under the empty key (whitespace-only keys are dropped), the key of a
row is by definition the stripped raw value, and concretely a `" K1 "` row
and a later `"K1"` row collide (first wins) while a whitespace-only key row
is dropped. -/
theorem load_keys_are_stripped (rows : List Row) (kc k : String) (hk : k ≠ "") :
    ((load_rows rows kc).lookup k = rows.find? (fun r => keyOf kc r == k))
    ∧ (load_rows rows kc).lookup "" = none
    ∧ (∀ r : Row, keyOf kc r = pyStrip ((r.lookup kc).getD ""))
    ∧ load_rows [[("k", " K1 "), ("v", "a")], [("k", "K1"), ("v", "b")]] "k"
        = [("K1", [("k", " K1 "), ("v", "a")])]
    ∧ load_rows [[("k", "   ")]] "k" = [] :=
  ⟨lookup_load_rows rows kc k hk, lookup_load_rows_empty rows kc,
    fun _ => rfl, by decide, by decide⟩

/-- Witness for C10 at a concrete file and key. -/
theorem load_keys_are_stripped_witness :
    ((load_rows [[("k", " K1 ")]] "k").lookup "K1"
        = [[("k", " K1 ")]].find? (fun r => keyOf "k" r == "K1"))
    ∧ (load_rows [[("k", " K1 ")]] "k").lookup "" = none
    ∧ (∀ r : Row, keyOf "k" r = pyStrip ((r.lookup "k").getD ""))
    ∧ load_rows [[("k", " K1 "), ("v", "a")], [("k", "K1"), ("v", "b")]] "k"
        = [("K1", [("k", " K1 "), ("v", "a")])]
    ∧ load_rows [[("k", "   ")]] "k" = [] :=
  load_keys_are_stripped [[("k", " K1 ")]] "k" "K1" (by decide)

/-! ## Claim C1 -/

theorem mem_changedRows_keys {old_map new_map : RowMap} {cmp : List String}
    {k : String} {ds : List (String × String × String)}
    (h : (k, ds) ∈ changedRows old_map new_map cmp) :
    k ∈ sharedKeyList old_map new_map := by
  unfold changedRows at h
  rw [List.mem_filterMap] at h
  obtain ⟨x, hx, hsome⟩ := h
  by_cases hds : rowDiffs old_map new_map cmp x = []
  · rw [if_pos hds] at hsome
    exact absurd hsome (by simp)
  · rw [if_neg hds] at hsome
    simp only [Option.some.injEq, Prod.mk.injEq] at hsome
    obtain ⟨rfl, -⟩ := hsome
    exact mem_sortKeys.mp hx

/-- C1 (amended): the new/removed/changed key sets produced by `csv_diff`
are pairwise disjoint, the changed keys are contained in the shared keys,
and new ∪ removed together with the shared keys (not with the changed keys
alone) partitions old ∪ new; a key shared by both snapshots whose compared
fields are all equal lies in none of the three sets. -/
theorem diff_key_sets_disjoint (f g : CSVFile) (kc : String)
    (fo : Option (List String)) (r : DiffResult)
    (h : csv_diff f g kc fo = Except.ok r) :
    Disjoint r.new_keys.toFinset r.rem_keys.toFinset
    ∧ Disjoint r.new_keys.toFinset (changedKeySet r)
    ∧ Disjoint r.rem_keys.toFinset (changedKeySet r)
    ∧ changedKeySet r ⊆ keysFin (loadMap f kc) ∩ keysFin (loadMap g kc)
    ∧ r.new_keys.toFinset ∪ r.rem_keys.toFinset
        ∪ (keysFin (loadMap f kc) ∩ keysFin (loadMap g kc))
      = keysFin (loadMap f kc) ∪ keysFin (loadMap g kc) := by
  have hf : kc ∈ f.fieldnames := by
    by_contra hf
    rw [csv_diff_eq_error f g kc fo (Or.inl hf)] at h
    exact absurd h (by simp)
  have hg : kc ∈ g.fieldnames := by
    by_contra hg
    rw [csv_diff_eq_error f g kc fo (Or.inr hg)] at h
    exact absurd h (by simp)
  rw [csv_diff_eq_ok f g kc fo hf hg] at h
  simp only [Except.ok.injEq] at h
  subst h
  have hnew : ∀ k : String,
      k ∈ sortKeys (newKeyList (loadMap f kc) (loadMap g kc)) ↔
        k ∈ keysList (loadMap g kc) ∧ k ∉ keysList (loadMap f kc) := by
    intro k
    rw [mem_sortKeys]
    unfold newKeyList
    rw [List.mem_filter]
    simp
  have hrem : ∀ k : String,
      k ∈ sortKeys (newKeyList (loadMap g kc) (loadMap f kc)) ↔
        k ∈ keysList (loadMap f kc) ∧ k ∉ keysList (loadMap g kc) := by
    intro k
    rw [mem_sortKeys]
    unfold newKeyList
    rw [List.mem_filter]
    simp
  have hchg : ∀ k : String,
      k ∈ (changedRows (loadMap f kc) (loadMap g kc)
          (resolveCmpFields fo f.fieldnames g.fieldnames kc)).map Prod.fst →
        k ∈ keysList (loadMap g kc) ∧ k ∈ keysList (loadMap f kc) := by
    intro k hk
    rw [List.mem_map] at hk
    obtain ⟨⟨k2, ds⟩, hmem, hfst⟩ := hk
    obtain rfl : k2 = k := hfst
    have h2 := mem_changedRows_keys hmem
    unfold sharedKeyList at h2
    rw [List.mem_filter] at h2
    exact ⟨h2.1, by simpa using h2.2⟩
  refine ⟨?_, ?_, ?_, ?_, ?_⟩
  · rw [Finset.disjoint_left]
    intro a ha hb
    rw [List.mem_toFinset, hnew] at ha
    rw [List.mem_toFinset, hrem] at hb
    exact ha.2 hb.1
  · rw [Finset.disjoint_left]
    intro a ha hb
    rw [List.mem_toFinset, hnew] at ha
    rw [changedKeySet, List.mem_toFinset] at hb
    exact ha.2 (hchg a hb).2
  · rw [Finset.disjoint_left]
    intro a ha hb
    rw [List.mem_toFinset, hrem] at ha
    rw [changedKeySet, List.mem_toFinset] at hb
    exact ha.2 (hchg a hb).1
  · intro a ha
    rw [changedKeySet, List.mem_toFinset] at ha
    have h2 := hchg a ha
    rw [Finset.mem_inter, keysFin, keysFin, List.mem_toFinset, List.mem_toFinset]
    exact ⟨h2.2, h2.1⟩
  · apply Finset.ext
    intro a
    simp only [Finset.mem_union, Finset.mem_inter, List.mem_toFinset, keysFin,
      hnew, hrem]
    by_cases h1 : a ∈ keysList (loadMap f kc) <;>
      by_cases h2 : a ∈ keysList (loadMap g kc) <;> simp [h1, h2]

/-- Witness for C1 at concrete files with one new, one removed, one changed
and one unchanged key. -/
theorem diff_key_sets_disjoint_witness :
    Disjoint (DiffResult.mk ["K4"] ["K2"] [("K1", [("v", "a", "c")])] ["v"]).new_keys.toFinset
      (DiffResult.mk ["K4"] ["K2"] [("K1", [("v", "a", "c")])] ["v"]).rem_keys.toFinset
    ∧ Disjoint (DiffResult.mk ["K4"] ["K2"] [("K1", [("v", "a", "c")])] ["v"]).new_keys.toFinset
      (changedKeySet (DiffResult.mk ["K4"] ["K2"] [("K1", [("v", "a", "c")])] ["v"]))
    ∧ Disjoint (DiffResult.mk ["K4"] ["K2"] [("K1", [("v", "a", "c")])] ["v"]).rem_keys.toFinset
      (changedKeySet (DiffResult.mk ["K4"] ["K2"] [("K1", [("v", "a", "c")])] ["v"]))
    ∧ changedKeySet (DiffResult.mk ["K4"] ["K2"] [("K1", [("v", "a", "c")])] ["v"])
        ⊆ keysFin (loadMap ⟨["k", "v"],
            [[("k", "K1"), ("v", "a")], [("k", "K2"), ("v", "b")],
             [("k", "K3"), ("v", "s")]]⟩ "k")
          ∩ keysFin (loadMap ⟨["k", "v"],
            [[("k", "K1"), ("v", "c")], [("k", "K3"), ("v", "s")],
             [("k", "K4"), ("v", "d")]]⟩ "k")
    ∧ (DiffResult.mk ["K4"] ["K2"] [("K1", [("v", "a", "c")])] ["v"]).new_keys.toFinset
        ∪ (DiffResult.mk ["K4"] ["K2"] [("K1", [("v", "a", "c")])] ["v"]).rem_keys.toFinset
        ∪ (keysFin (loadMap ⟨["k", "v"],
            [[("k", "K1"), ("v", "a")], [("k", "K2"), ("v", "b")],
             [("k", "K3"), ("v", "s")]]⟩ "k")
          ∩ keysFin (loadMap ⟨["k", "v"],
            [[("k", "K1"), ("v", "c")], [("k", "K3"), ("v", "s")],
             [("k", "K4"), ("v", "d")]]⟩ "k"))
      = keysFin (loadMap ⟨["k", "v"],
            [[("k", "K1"), ("v", "a")], [("k", "K2"), ("v", "b")],
             [("k", "K3"), ("v", "s")]]⟩ "k")
        ∪ keysFin (loadMap ⟨["k", "v"],
            [[("k", "K1"), ("v", "c")], [("k", "K3"), ("v", "s")],
             [("k", "K4"), ("v", "d")]]⟩ "k") :=
  diff_key_sets_disjoint
    ⟨["k", "v"], [[("k", "K1"), ("v", "a")], [("k", "K2"), ("v", "b")],
      [("k", "K3"), ("v", "s")]]⟩
    ⟨["k", "v"], [[("k", "K1"), ("v", "c")], [("k", "K3"), ("v", "s")],
      [("k", "K4"), ("v", "d")]]⟩
    "k" none (DiffResult.mk ["K4"] ["K2"] [("K1", [("v", "a", "c")])] ["v"]) rfl

/-- C1 counterexample: diffing a one-row file against itself, new ∪ removed
∪ changed is empty while old ∪ new contains the key, so the three sets do
not partition old ∪ new. -/
theorem diff_key_sets_not_partition :
    csv_diff ⟨["k", "v"], [[("k", "K1"), ("v", "a")]]⟩
        ⟨["k", "v"], [[("k", "K1"), ("v", "a")]]⟩ "k" none
      = Except.ok (DiffResult.mk [] [] [] ["v"])
    ∧ (DiffResult.mk [] [] [] ["v"]).new_keys.toFinset
        ∪ (DiffResult.mk [] [] [] ["v"]).rem_keys.toFinset
        ∪ changedKeySet (DiffResult.mk [] [] [] ["v"])
      ≠ keysFin (loadMap ⟨["k", "v"], [[("k", "K1"), ("v", "a")]]⟩ "k")
        ∪ keysFin (loadMap ⟨["k", "v"], [[("k", "K1"), ("v", "a")]]⟩ "k") :=
  ⟨rfl, by decide⟩

/-! ## Poller step lemmas -/

theorem pollLoop_success_step (cfg : PollConfig) (s : PollState)
    (hp : cfg.poll (s.attempts + 1) s.gen_date = true) :
    pollLoop cfg s = PollResult.success { s with attempts := s.attempts + 1 } := by
  rw [pollLoop, if_pos hp]

theorem pollLoop_noCreate_step (cfg : PollConfig) (s : PollState)
    (hp : cfg.poll (s.attempts + 1) s.gen_date = false)
    (hc : cfg.create = false) :
    pollLoop cfg s = PollResult.notReady { s with attempts := s.attempts + 1 } := by
  rw [pollLoop, if_neg (by simp [hp]), if_pos hc]

theorem pollLoop_rollback_step (cfg : PollConfig) (s : PollState)
    (hp : cfg.poll (s.attempts + 1) s.gen_date = false)
    (hc : cfg.create = true) (hd : cfg.explicit_date = none)
    (ht : s.tried_yesterday = false) (hh : cfg.hour s.elapsed < 6) :
    pollLoop cfg s = pollLoop cfg
      { attempts := s.attempts + 1, gen_date := cfg.yesterday,
        tried_yesterday := true, elapsed := s.elapsed, sleeps := s.sleeps,
        rollbacks := s.rollbacks + 1 } := by
  rw [pollLoop, if_neg (by simp [hp]), if_neg (by simp [hc]),
    dif_pos ⟨hd, ht, hh⟩]

theorem pollLoop_timeout_step (cfg : PollConfig) (s : PollState)
    (hp : cfg.poll (s.attempts + 1) s.gen_date = false)
    (hc : cfg.create = true)
    (hno : ¬(cfg.explicit_date = none ∧ s.tried_yesterday = false ∧
      cfg.hour s.elapsed < 6))
    (hT : cfg.timeout_s ≤ s.elapsed) :
    pollLoop cfg s = PollResult.timeout { s with attempts := s.attempts + 1 } := by
  rw [pollLoop, if_neg (by simp [hp]), if_neg (by simp [hc]), dif_neg hno,
    dif_pos hT]

theorem pollLoop_sleep_step (cfg : PollConfig) (s : PollState)
    (hp : cfg.poll (s.attempts + 1) s.gen_date = false)
    (hc : cfg.create = true)
    (hno : ¬(cfg.explicit_date = none ∧ s.tried_yesterday = false ∧
      cfg.hour s.elapsed < 6))
    (hT : ¬ cfg.timeout_s ≤ s.elapsed) :
    pollLoop cfg s = pollLoop cfg
      { s with attempts := s.attempts + 1,
               elapsed := s.elapsed + max 60 cfg.poll_interval_s,
               sleeps := s.sleeps + 1 } := by
  rw [pollLoop, if_neg (by simp [hp]), if_neg (by simp [hc]), dif_neg hno,
    dif_neg hT]

/-! ## Poller invariants -/

theorem pollLoop_rollbacks_le (cfg : PollConfig) (s : PollState) :
    (pollLoop cfg s).state.rollbacks ≤
      s.rollbacks + cond s.tried_yesterday 0 1 := by
  induction s using pollLoop.induct cfg with
  | case1 x hp =>
    rw [pollLoop, if_pos hp]
    exact Nat.le_add_right _ _
  | case2 x hp hc =>
    rw [pollLoop, if_neg hp, if_pos hc]
    exact Nat.le_add_right _ _
  | case3 x hp hc h3 ih =>
    rw [pollLoop, if_neg hp, if_neg hc, dif_pos h3]
    rw [h3.2.1]
    simpa using ih
  | case4 x hp hc h3 h4 =>
    rw [pollLoop, if_neg hp, if_neg hc, dif_neg h3, dif_pos h4]
    exact Nat.le_add_right _ _
  | case5 x hp hc h3 h4 ih =>
    rw [pollLoop, if_neg hp, if_neg hc, dif_neg h3, dif_neg h4]
    exact ih

theorem pollLoop_rollbacks_eq (cfg : PollConfig)
    (hno : ∀ e : Nat, ¬(cfg.explicit_date = none ∧ cfg.hour e < 6))
    (s : PollState) :
    (pollLoop cfg s).state.rollbacks = s.rollbacks := by
  induction s using pollLoop.induct cfg with
  | case1 x hp =>
    rw [pollLoop, if_pos hp]
    rfl
  | case2 x hp hc =>
    rw [pollLoop, if_neg hp, if_pos hc]
    rfl
  | case3 x hp hc h3 ih => exact absurd ⟨h3.1, h3.2.2⟩ (hno x.elapsed)
  | case4 x hp hc h3 h4 =>
    rw [pollLoop, if_neg hp, if_neg hc, dif_neg h3, dif_pos h4]
    rfl
  | case5 x hp hc h3 h4 ih =>
    rw [pollLoop, if_neg hp, if_neg hc, dif_neg h3, dif_neg h4]
    exact ih

/-! ## Claim C5 -/

/-- C5: when `--create` is not given and the first poll is not ready (or a
transport error — both return `ok = False` from `try_download`), the run
ends immediately as not-ready: exactly one attempt, no sleep, no rollback,
no further poll. -/
theorem no_create_fails_immediately (cfg : PollConfig)
    (hc : cfg.create = false)
    (hp : cfg.poll 1 (cfg.explicit_date.getD cfg.today) = false) :
    pollRun cfg = PollResult.notReady
      { attempts := 1, gen_date := cfg.explicit_date.getD cfg.today,
        tried_yesterday := false, elapsed := 0, sleeps := 0, rollbacks := 0 } := by
  unfold pollRun
  exact pollLoop_noCreate_step cfg _ hp hc

/-- Witness for C5 at a concrete configuration. -/
theorem no_create_fails_immediately_witness :
    pollRun ⟨false, none, 600, 7200, "20250101", "20241231",
        fun _ _ => false, fun _ => 12⟩
      = PollResult.notReady ⟨1, "20250101", false, 0, 0, 0⟩ :=
  no_create_fails_immediately _ rfl rfl

/-! ## Claim C2 -/

/-- C2 (amended): with createFirst true, an always-not-ready `pollFn`, an
explicit date (so the rollback heuristic cannot fire), a 2-second timeout
and a 60-second interval (the sleep floor): the first deadline check
passes (2 seconds remain, the check precedes the sleep), one 60-second
sleep happens, and the second deadline check fails — TimeoutError with
attempt count 2 and exactly one sleep. -/
theorem timeout_shorter_than_floor (cfg : PollConfig) (d : String)
    (hc : cfg.create = true)
    (hd : cfg.explicit_date = some d)
    (hi : cfg.poll_interval_s = 60)
    (hT : cfg.timeout_s = 2)
    (hp : ∀ n d2, cfg.poll n d2 = false) :
    pollRun cfg = PollResult.timeout
      { attempts := 2, gen_date := d, tried_yesterday := false,
        elapsed := 60, sleeps := 1, rollbacks := 0 } := by
  unfold pollRun
  have hgd : cfg.explicit_date.getD cfg.today = d := by rw [hd]; rfl
  rw [hgd]
  rw [pollLoop_sleep_step cfg _ (hp _ _) hc (by simp [hd]) (by simp [hT])]
  rw [pollLoop_timeout_step cfg _ (hp _ _) hc (by simp [hd])
    (by simp [hT, hi])]
  simp [hi]

/-- Witness for C2 (amended) at a concrete configuration. -/
theorem timeout_shorter_than_floor_witness :
    pollRun ⟨true, some "20250101", 60, 2, "20250101", "20241231",
        fun _ _ => false, fun _ => 12⟩
      = PollResult.timeout ⟨2, "20250101", false, 60, 1, 0⟩ :=
  timeout_shorter_than_floor _ "20250101" rfl rfl rfl rfl (fun _ _ => rfl)

/-- C2 counterexample: in the claimed scenario the loop does NOT stop at
attempt 1 with no sleep — the first deadline check still has 2 seconds
left, so the loop sleeps 60 seconds once and times out on attempt 2. -/
theorem timeout_shorter_than_floor_counterexample :
    pollRun ⟨true, some "20250101", 60, 2, "20250101", "20241231",
        fun _ _ => false, fun _ => 6⟩
      = PollResult.timeout ⟨2, "20250101", false, 60, 1, 0⟩
    ∧ ¬((pollRun ⟨true, some "20250101", 60, 2, "20250101", "20241231",
          fun _ _ => false, fun _ => 6⟩).state.attempts = 1
        ∧ (pollRun ⟨true, some "20250101", 60, 2, "20250101", "20241231",
          fun _ _ => false, fun _ => 6⟩).state.sleeps = 0) := by
  have h1 : pollRun ⟨true, some "20250101", 60, 2, "20250101", "20241231",
      fun _ _ => false, fun _ => 6⟩
      = PollResult.timeout ⟨2, "20250101", false, 60, 1, 0⟩ := by
    unfold pollRun
    rw [pollLoop_sleep_step _ _ rfl rfl (by simp) (by simp)]
    rw [pollLoop_timeout_step _ _ rfl rfl (by simp) (by simp)]
    rfl
  refine ⟨h1, ?_⟩
  rintro ⟨ha, -⟩
  rw [h1] at ha
  simp [PollResult.state] at ha

/-! ## Claim C6 -/

/-- C6: across every run the previous-day rollback occurs at most once; it
never occurs when an explicit date was given, nor when the clock is at or
past 06:00 for the whole run; and when its guard holds (poll failed,
create mode, no explicit date, not yet tried, hour before 6) the loop
re-enters with the target date set to yesterday, the attempt counter
incremented, and the elapsed time and sleep count unchanged — the next
poll happens immediately without sleeping. -/
theorem rollback_at_most_once (cfg : PollConfig) :
    (pollRun cfg).state.rollbacks ≤ 1
    ∧ (∀ d, cfg.explicit_date = some d → (pollRun cfg).state.rollbacks = 0)
    ∧ ((∀ e, 6 ≤ cfg.hour e) → (pollRun cfg).state.rollbacks = 0)
    ∧ (∀ s : PollState, cfg.poll (s.attempts + 1) s.gen_date = false →
        cfg.create = true → cfg.explicit_date = none →
        s.tried_yesterday = false → cfg.hour s.elapsed < 6 →
        pollLoop cfg s = pollLoop cfg
          { attempts := s.attempts + 1, gen_date := cfg.yesterday,
            tried_yesterday := true, elapsed := s.elapsed, sleeps := s.sleeps,
            rollbacks := s.rollbacks + 1 }) := by
  refine ⟨?_, ?_, ?_, ?_⟩
  · simpa using pollLoop_rollbacks_le cfg
      { attempts := 0, gen_date := cfg.explicit_date.getD cfg.today,
        tried_yesterday := false, elapsed := 0, sleeps := 0, rollbacks := 0 }
  · intro d hd
    exact pollLoop_rollbacks_eq cfg (fun e h => by rw [hd] at h; simp at h) _
  · intro hh
    exact pollLoop_rollbacks_eq cfg (fun e h => absurd h.2 (by have := hh e; omega)) _
  · intro s hp hc hd ht hh
    exact pollLoop_rollback_step cfg s hp hc hd ht hh

/-- Witness for C6: the explicit-date part and the rollback-step part at
concrete configurations. -/
theorem rollback_at_most_once_witness :
    (pollRun ⟨true, some "20250101", 600, 7200, "20250101", "20241231",
        fun _ _ => false, fun _ => 3⟩).state.rollbacks = 0
    ∧ pollLoop ⟨true, none, 600, 7200, "20250101", "20241231",
        fun _ _ => false, fun _ => 3⟩ ⟨0, "20250101", false, 0, 0, 0⟩
      = pollLoop ⟨true, none, 600, 7200, "20250101", "20241231",
        fun _ _ => false, fun _ => 3⟩ ⟨1, "20241231", true, 0, 0, 1⟩ :=
  ⟨(rollback_at_most_once _).2.1 "20250101" rfl,
   (rollback_at_most_once _).2.2.2 ⟨0, "20250101", false, 0, 0, 0⟩
     rfl rfl rfl rfl (by decide)⟩

/-! ## Claim C3 -/

/-- C3 (amended): every core error is terminal to the run, and a metadata
record is persisted before exit for the create-HTTP-error and the
download-not-ready/timeout cases (and on success) — but a KeyColumnMissing
error raised inside the diff terminates the run with NO metadata record
persisted: the `SystemExit` from `load_csv_as_map` skips the final
`write_json` of `main`. -/
theorem errors_terminate_and_metadata (a : MainArgs) :
    ((mainModel a).outcome = RunOutcome.createHttpError →
      (mainModel a).metadata_written = true)
    ∧ ((mainModel a).outcome = RunOutcome.downloadNotReady →
      (mainModel a).metadata_written = true)
    ∧ ((mainModel a).outcome = RunOutcome.done →
      (mainModel a).metadata_written = true)
    ∧ ((mainModel a).outcome = RunOutcome.keyColumnMissing →
      (mainModel a).metadata_written = false) := by
  unfold mainModel
  split
  · simp
  · split
    · split
      · split
        · simp
        · simp
      · simp
    · simp
    · simp

/-- Witness for C3 at a concrete configuration whose CREATE call fails
with HTTP 500: metadata is persisted. -/
theorem errors_terminate_and_metadata_witness :
    (mainModel ⟨500, ⟨true, none, 600, 7200, "20250101", "20241231",
        fun _ _ => false, fun _ => 12⟩, false,
        ⟨["k"], []⟩, ⟨["k"], []⟩, "k", none⟩).metadata_written = true :=
  (errors_terminate_and_metadata _).1 rfl

/-- C3 counterexample: the download succeeds, a diff against an old file
whose header lacks the key column is requested, and the run terminates as
KeyColumnMissing with NO metadata record written. -/
theorem key_column_missing_skips_metadata :
    (mainModel ⟨200, ⟨false, none, 600, 7200, "20250101", "20241231",
        fun _ _ => true, fun _ => 12⟩, true,
        ⟨["x"], []⟩, ⟨["k"], []⟩, "k", none⟩).outcome
      = RunOutcome.keyColumnMissing
    ∧ (mainModel ⟨200, ⟨false, none, 600, 7200, "20250101", "20241231",
        fun _ _ => true, fun _ => 12⟩, true,
        ⟨["x"], []⟩, ⟨["k"], []⟩, "k", none⟩).metadata_written = false := by
  have h1 : pollRun ⟨false, none, 600, 7200, "20250101", "20241231",
      fun _ _ => true, fun _ => 12⟩
      = PollResult.success ⟨1, "20250101", false, 0, 0, 0⟩ := by
    unfold pollRun
    exact pollLoop_success_step _ _ rfl
  have h2 : mainModel ⟨200, ⟨false, none, 600, 7200, "20250101", "20241231",
      fun _ _ => true, fun _ => 12⟩, true,
      ⟨["x"], []⟩, ⟨["k"], []⟩, "k", none⟩
      = ⟨RunOutcome.keyColumnMissing, false⟩ := by
    unfold mainModel
    rw [if_neg (by simp), h1]
    rfl
  exact ⟨by rw [h2], by rw [h2]⟩
